import Mathlib

/-!
Shallow embedding of the queue-server engine (`src/server.js`) of the
LabQue2025 repository, together with theorems checking its natural-language
specification.

The server keeps its whole state in module-level mutable variables
(`queues`, `currentServing`, `lastServed`, `queueNumbers`, `servedHistory`,
`totalServed`, `totalWaitTime`, `currentAnnouncement`), persists it as one
JSON file via `saveState` (`fs.writeFileSync`), and broadcasts strings over
a WebSocket server via `notifyClients`.  Here the mutable variables become
the fields of `EngineState`; the data file becomes `Sys.snapshot`
(`none` = file absent); the sequence of broadcast messages becomes
`Sys.broadcasts`.  Each HTTP handler becomes a function from its inputs and
the current `Sys` to a result and a new `Sys`.

JavaScript exceptions are modelled with `Except`: an uncaught exception in a
handler is `.error (fault, sys)`, where `sys` is the in-memory state at the
moment of the throw (the mutations already applied survive, since the
process keeps running and Express merely answers HTTP 500).  Two faults
occur: `typeError` — `queues[service].shift()` with `queues[service]`
undefined — and `persistFailed` — `fs.writeFileSync` throwing inside
`saveState`.  Whether the durable write succeeds is a parameter `writeOk`
of each operation.

The three station objects have the fixed key set
{Charging, Releasing, Extraction} (no handler ever adds a key), so the
JavaScript objects keyed by station name are embedded as `StMap`, a record
with one field per key, and property lookup `obj[service]` is
`keyOf service` followed by `StMap.get` (`keyOf s = none` models
`obj[s] === undefined`).
-/

/-- The three configured stations: the fixed key set of the JS state objects. -/
inductive StKey : Type where
  | charging
  | releasing
  | extraction
deriving DecidableEq, Repr

/-- A JS object whose keys are exactly the three station names. -/
structure StMap (α : Type) : Type where
  charging : α
  releasing : α
  extraction : α
deriving DecidableEq, Repr

/-- Property lookup by station key. -/
def StMap.get {α : Type} (m : StMap α) : StKey → α
  | .charging => m.charging
  | .releasing => m.releasing
  | .extraction => m.extraction

/-- Property assignment by station key. -/
def StMap.set {α : Type} (m : StMap α) : StKey → α → StMap α
  | .charging, v => { m with charging := v }
  | .releasing, v => { m with releasing := v }
  | .extraction, v => { m with extraction := v }

/-- The same value at every key. -/
def StMap.const {α : Type} (v : α) : StMap α := ⟨v, v, v⟩

/-- Own-key lookup on the station-keyed state objects: `some k` exactly when
`service` is one of the three configured station names (the objects' own
data properties).  The full JS lookup `obj[service]`, prototype chain
included, is `jsLookup` below. -/
def keyOf (service : String) : Option StKey :=
  if service = "Charging" then some .charging
  else if service = "Releasing" then some .releasing
  else if service = "Extraction" then some .extraction
  else none

/-- The station name a key stands for. -/
def nameOf : StKey → String
  | .charging => "Charging"
  | .releasing => "Releasing"
  | .extraction => "Extraction"

/-- Own property names of `Object.prototype` (ECMA-262) other than
`__proto__`.  A JS object literal inherits all of them, so `obj[s]` is
defined — and truthy — for these strings even though they are not own keys
of the station maps.  All of them are built-in functions (each with arity
at most 2). -/
def objectProtoFnKeys : List String :=
  ["constructor", "hasOwnProperty", "isPrototypeOf", "propertyIsEnumerable",
   "toLocaleString", "toString", "valueOf", "__defineGetter__",
   "__defineSetter__", "__lookupGetter__", "__lookupSetter__"]

/-- Result of the full JS property lookup `obj[service]` on the station
objects, prototype chain included. -/
inductive JsLookup : Type where
  | own (k : StKey)
  | protoFn
  | protoObj
  | absent
deriving DecidableEq, Repr

/-- Classify `obj[service]`: an own station entry; an inherited
`Object.prototype` function (truthy); the prototype object produced by the
`__proto__` accessor (truthy); or `undefined` (falsy) for everything
else. -/
def jsLookup (service : String) : JsLookup :=
  match keyOf service with
  | some k => .own k
  | none =>
    if service = "__proto__" then .protoObj
    else if service ∈ objectProtoFnKeys then .protoFn
    else .absent

/-- Creating (or overwriting) an own property at a non-station key: a new
key is appended to the object's property order, an existing one is
overwritten in place. -/
def jsInsert (s : String) (l : List String) : List String :=
  if s ∈ l then l else l ++ [s]

/-- The `user` object built by `app.post('/queue')`:
`{ number: generateQueueNumber(service), service, timestamp: Date.now() }`. -/
structure Ticket : Type where
  number : String
  service : String
  timestamp : Nat
deriving DecidableEq, Repr

/-- Configuration `settings = { averageServiceTime: 5, maxQueueLength: 100 }` (server.js 44-47). -/
structure Settings : Type where
  averageServiceTime : Nat
  maxQueueLength : Nat
deriving DecidableEq, Repr

def settings : Settings := { averageServiceTime := 5, maxQueueLength := 100 }

/-- The module-level mutable variables of server.js (lines 15-42); also the
exact shape of the object serialized by `saveState` (lines 50-59). -/
structure EngineState : Type where
  queues : StMap (List Ticket)
  currentServing : StMap (Option Ticket)
  lastServed : StMap (Option Ticket)
  queueNumbers : StMap Nat
  servedHistory : List Ticket
  totalServed : Nat
  totalWaitTime : Nat
  currentAnnouncement : String
  /-- Own properties created on the `queueNumbers` object at non-station
  keys by `++queueNumbers[service]`; their value is always `NaN`. -/
  nanCounters : List String
  /-- Own properties created on the `currentServing` object at inherited
  `Object.prototype` names by the recall handler; their value is the
  inherited function that the `lastServed[service]` lookup produced. -/
  servingJunk : List String
deriving DecidableEq, Repr

/-- The engine state at process start (the literal initializers,
server.js 15-42), also reinstated by `app.post('/reset-queue')`. -/
def initialEngine : EngineState :=
  { queues := .const []
    currentServing := .const none
    lastServed := .const none
    queueNumbers := .const 0
    servedHistory := []
    totalServed := 0
    totalWaitTime := 0
    currentAnnouncement := ""
    nanCounters := []
    servingJunk := [] }

/-- In-memory engine state, the durable snapshot file (`none` = absent), and
the list of WebSocket messages broadcast so far. -/
structure Sys : Type where
  engine : EngineState
  snapshot : Option EngineState
  broadcasts : List String
deriving DecidableEq, Repr

/-- Fresh process with no data file and nothing broadcast. -/
def initialSys : Sys := { engine := initialEngine, snapshot := none, broadcasts := [] }

/-- Uncaught JS exceptions: `typeError` from `queues[service].shift()` on an
undefined queue, `persistFailed` from `fs.writeFileSync` failing. -/
inductive Fault : Type where
  | typeError
  | persistFailed
deriving DecidableEq, Repr

/-- Embedding of `saveState()` (server.js 49-61): writes the
`JSON.stringify` image of the whole engine state to the data file —
`serializeState` models the stringification: function-valued own properties
(`servingJunk`) are omitted by `JSON.stringify`, while the `NaN`-valued
counter entries survive as null-valued keys, so their key list is retained.
`fs.writeFileSync` is not wrapped in any try/catch, so a failed write
throws out of `saveState` into the caller; the in-memory state is untouched
either way. -/
def serializeState (σ : EngineState) : EngineState :=
  { σ with servingJunk := [] }

def saveState (writeOk : Bool) (sys : Sys) : Except (Fault × Sys) Sys :=
  if writeOk then .ok { sys with snapshot := some (serializeState sys.engine) }
  else .error (.persistFailed, sys)

/-- Embedding of `notifyClients(message)` (server.js 85-91): best-effort fan-out; observable
effect modelled as appending to the broadcast log. -/
def notifyClients (message : String) (sys : Sys) : Sys :=
  { sys with broadcasts := sys.broadcasts ++ [message] }

/-- Embedding of `service.charAt(0).toUpperCase()` (server.js 94). -/
def stationInitialOf (service : String) : String :=
  ((service.data.take 1).map Char.toUpper).asString

/-- Embedding of `generateQueueNumber(service)` (server.js 93-96):
`` `${prefix}${++queueNumbers[service]}` ``.  At a configured station the
counter is pre-incremented and the new value stringified into the number.
At any other key, `++` coerces the looked-up value — an inherited
`Object.prototype` function, the prototype object, or `undefined` — to
`NaN`, so the number ends in "NaN" and the write-back creates an own `NaN`
entry on `queueNumbers`; the one exception is `"__proto__"`, whose setter
silently ignores the non-object value, leaving the object unchanged. -/
def generateQueueNumber (service : String) (σ : EngineState) :
    String × EngineState :=
  match jsLookup service with
  | .own k =>
    let n := σ.queueNumbers.get k + 1
    (stationInitialOf service ++ Nat.repr n,
     { σ with queueNumbers := σ.queueNumbers.set k n })
  | .protoObj => (stationInitialOf service ++ "NaN", σ)
  | _ =>
    (stationInitialOf service ++ "NaN",
     { σ with nanCounters := jsInsert service σ.nanCounters })

/-- Embedding of `addToQueue(service, user)` (server.js 98-107), guarded by
the truthiness of `queues[service]`.  At a configured station: below
`maxQueueLength`, push the ticket and persist; if full, only
`console.error`.  At an unknown key the guard is falsy and nothing happens.
At an inherited `Object.prototype` function the guard is truthy and the
function's arity passes the length check, but calling `.push` on it throws
a TypeError.  At `"__proto__"` the prototype object is truthy but its
`.length` is `undefined`, so the capacity test is false and the ticket is
silently dropped. -/
def addToQueue (service : String) (user : Ticket) (writeOk : Bool) (sys : Sys) :
    Except (Fault × Sys) Sys :=
  match jsLookup service with
  | .absent => .ok sys
  | .own k =>
    let q := sys.engine.queues.get k
    if q.length < settings.maxQueueLength then
      saveState writeOk
        { sys with engine := { sys.engine with queues := sys.engine.queues.set k (q ++ [user]) } }
    else
      .ok sys
  | .protoFn => .error (.typeError, sys)
  | .protoObj => .ok sys

/-- Embedding of `callNextNumber(service)` (server.js 109-122).
`queues[service].shift()` throws a TypeError whenever `queues[service]` is
not an array — `undefined` for unknown keys, an inherited function or the
prototype object for `Object.prototype` names (none of which have a
`.shift` method); there is no validity check on this path.  On a non-empty
configured queue: pop the head, make it both `currentServing[service]` and
`lastServed[service]`, append it to `servedHistory`, bump `totalServed` and
`totalWaitTime`, broadcast, persist, and return it; on an empty queue
return `null` with no effect. -/
def callNextNumber (service : String) (writeOk : Bool) (sys : Sys) :
    Except (Fault × Sys) (Option Ticket × Sys) :=
  match jsLookup service with
  | .own k =>
    match sys.engine.queues.get k with
    | [] => .ok (none, sys)
    | nextUser :: rest =>
      let σ := sys.engine
      let σ2 : EngineState :=
        { σ with
          queues := σ.queues.set k rest
          currentServing := σ.currentServing.set k (some nextUser)
          lastServed := σ.lastServed.set k (some nextUser)
          servedHistory := σ.servedHistory ++ [nextUser]
          totalServed := σ.totalServed + 1
          totalWaitTime := σ.totalWaitTime + settings.averageServiceTime }
      let sys1 := notifyClients
        ("Now serving number " ++ nextUser.number ++ " at " ++ service)
        { sys with engine := σ2 }
      (saveState writeOk sys1).map fun sys2 => (some nextUser, sys2)
  | _ => .error (.typeError, sys)

/-- Response of `POST /queue`. -/
inductive EnqueueResult : Type where
  | invalidService
  | issued (number : String)
deriving DecidableEq, Repr

/-- Handler `app.post('/queue')` (server.js 138-146): 400 "Invalid service"
only when `queues[service]` is falsy, i.e. genuinely `undefined` — an
inherited `Object.prototype` value also passes this guard; otherwise mint
the number (counter spent first), build the ticket with the current
timestamp, try `addToQueue`, and answer with the minted number regardless
of whether the ticket was stored. -/
def postQueue (service : String) (now : Nat) (writeOk : Bool) (sys : Sys) :
    Except (Fault × Sys) (EnqueueResult × Sys) :=
  match jsLookup service with
  | .absent => .ok (.invalidService, sys)
  | _ =>
    let p := generateQueueNumber service sys.engine
    let user : Ticket := { number := p.1, service := service, timestamp := now }
    (addToQueue service user writeOk { sys with engine := p.2 }).map
      fun sys2 => (.issued p.1, sys2)

/-- Response of `POST /call`. -/
inductive CallResult : Type where
  | served (number : String)
  | noTicket
deriving DecidableEq, Repr

/-- Handler `app.post('/call')` (server.js 148-156): no validation, just
`callNextNumber`; `{current: number}` on success, `{current: null}` otherwise. -/
def postCall (service : String) (writeOk : Bool) (sys : Sys) :
    Except (Fault × Sys) (CallResult × Sys) :=
  (callNextNumber service writeOk sys).map fun r =>
    match r.1 with
    | some u => (.served u.number, r.2)
    | none => (.noTicket, r.2)

/-- Response of `POST /recall`.  `recalledUndefined` is the 200 answer
produced when the truthy looked-up value is an inherited non-ticket:
`lastUser.number` is `undefined`, so the JSON body omits `lastNumber`. -/
inductive RecallResult : Type where
  | nothingToRecall
  | recalled (lastNumber : String)
  | recalledUndefined
deriving DecidableEq, Repr

/-- Handler `app.post('/recall')` (server.js 158-172): when
`lastServed[service]` is falsy — `undefined` at a genuinely unknown key, or
`null` at a configured station never served — 400 "Nothing to recall." and
no state change.  At a configured station with a served ticket: re-assign
it to `currentServing`, broadcast, persist, answer its number.  At an
inherited `Object.prototype` name the lookup is truthy, so the handler
takes the success path with a non-ticket `lastUser`: it stores the
inherited function as an own property of `currentServing` (for
`"__proto__"` the prototype setter makes the assignment a no-op),
broadcasts "Now serving number undefined at ...", persists, and answers
200 with an `undefined` last number. -/
def postRecall (service : String) (writeOk : Bool) (sys : Sys) :
    Except (Fault × Sys) (RecallResult × Sys) :=
  match jsLookup service with
  | .absent => .ok (.nothingToRecall, sys)
  | .own k =>
    match sys.engine.lastServed.get k with
    | none => .ok (.nothingToRecall, sys)
    | some lastUser =>
      let sys1 : Sys :=
        { sys with engine :=
          { sys.engine with currentServing := sys.engine.currentServing.set k (some lastUser) } }
      let sys2 := notifyClients
        ("Now serving number " ++ lastUser.number ++ " at " ++ service) sys1
      (saveState writeOk sys2).map fun sys3 => (.recalled lastUser.number, sys3)
  | .protoFn =>
    let sys1 : Sys :=
      { sys with engine :=
        { sys.engine with servingJunk := jsInsert service sys.engine.servingJunk } }
    let sys2 := notifyClients ("Now serving number undefined at " ++ service) sys1
    (saveState writeOk sys2).map fun sys3 => (.recalledUndefined, sys3)
  | .protoObj =>
    let sys2 := notifyClients ("Now serving number undefined at " ++ service) sys
    (saveState writeOk sys2).map fun sys3 => (.recalledUndefined, sys3)

/-- Handler `app.post('/announcement')` (server.js 174-180): overwrite the
announcement, broadcast, persist, 200 with empty body. -/
def postAnnouncement (text : String) (writeOk : Bool) (sys : Sys) :
    Except (Fault × Sys) Sys :=
  let sys1 : Sys := { sys with engine := { sys.engine with currentAnnouncement := text } }
  let sys2 := notifyClients ("New Announcement: " ++ text) sys1
  saveState writeOk sys2

/-- Handler `app.get('/announcement')` (server.js 182-184): pure read. -/
def getAnnouncement (sys : Sys) : String :=
  sys.engine.currentAnnouncement

/-- One entry of the `GET /queue` response. -/
structure StationStatus : Type where
  current : Option String
  waiting : List String
  estimatedWaitTime : Nat
deriving DecidableEq, Repr

/-- Handler `app.get('/queue')` (server.js 124-136): for every station, the current
number (or null), the waiting numbers in order, and
`waiting.length * averageServiceTime`.  Pure read. -/
def getQueueStatus (sys : Sys) : StMap StationStatus :=
  { charging :=
      { current := (sys.engine.currentServing.get .charging).map Ticket.number
        waiting := (sys.engine.queues.get .charging).map Ticket.number
        estimatedWaitTime := (sys.engine.queues.get .charging).length * settings.averageServiceTime }
    releasing :=
      { current := (sys.engine.currentServing.get .releasing).map Ticket.number
        waiting := (sys.engine.queues.get .releasing).map Ticket.number
        estimatedWaitTime := (sys.engine.queues.get .releasing).length * settings.averageServiceTime }
    extraction :=
      { current := (sys.engine.currentServing.get .extraction).map Ticket.number
        waiting := (sys.engine.queues.get .extraction).map Ticket.number
        estimatedWaitTime := (sys.engine.queues.get .extraction).length * settings.averageServiceTime } }

/-- Handler `app.post('/reset-queue')` (server.js 186-223): reinstates every
initializer literal, removes the data file (`fs.unlink`, errors only
logged), and broadcasts nothing.  Nothing inside the `try` can throw. -/
def postResetQueue (sys : Sys) : Sys :=
  { engine := initialEngine, snapshot := none, broadcasts := sys.broadcasts }

/-- Response of `GET /export`. -/
inductive ExportResult : Type where
  | noData
  | csv (rows : List (String × String))
deriving DecidableEq, Repr

/-- The rows collected by `app.get('/export')` (server.js 226-231): one
`{service, number}` pair per waiting ticket, stations in the object's key
order Charging, Releasing, Extraction. -/
def exportRows (σ : EngineState) : List (String × String) :=
  ((σ.queues.get .charging).map fun u => ("Charging", u.number)) ++
  ((σ.queues.get .releasing).map fun u => ("Releasing", u.number)) ++
  ((σ.queues.get .extraction).map fun u => ("Extraction", u.number))

/-- Handler `app.get('/export')` (server.js 225-243): 400 "No data available to
export." when no rows; otherwise the rows (CSV formatting is out of scope).
Pure read. -/
def getExport (sys : Sys) : ExportResult :=
  let rows := exportRows sys.engine
  if rows = [] then .noData else .csv rows

/-- One mutating HTTP request, with the timestamp `Date.now()` returns during
it and whether the durable write succeeds during it. -/
inductive Op : Type where
  | enqueue (service : String) (now : Nat) (writeOk : Bool)
  | callNext (service : String) (writeOk : Bool)
  | recallLast (service : String) (writeOk : Bool)
  | announce (text : String) (writeOk : Bool)
  | reset

/-- The in-memory state a handler run leaves behind, whether it answered
normally or threw (the process survives an uncaught handler exception). -/
def runOut {α : Type} : Except (Fault × Sys) (α × Sys) → Sys
  | .ok p => p.2
  | .error p => p.2

/-- Same as `runOut` for the announcement handler, whose normal answer has
no payload. -/
def runOutA : Except (Fault × Sys) Sys → Sys
  | .ok sys => sys
  | .error p => p.2

/-- State transition of one mutating request. -/
def applyOp : Op → Sys → Sys
  | .enqueue s now w, sys => runOut (postQueue s now w sys)
  | .callNext s w, sys => runOut (postCall s w sys)
  | .recallLast s w, sys => runOut (postRecall s w sys)
  | .announce t w, sys => runOutA (postAnnouncement t w sys)
  | .reset, sys => postResetQueue sys

/-- Ghost state: per station, the most recent ticket assigned to
`currentServing[...]` since the last reset (`none` before any assignment). -/
def ghostInit : StMap (Option Ticket) := .const none

/-- Ghost observer of the two assignments `currentServing[service] = ...` in
server.js (line 112 in `callNextNumber`, line 166 in the recall handler) and
of the wholesale reinstatement done by reset.  The recall handler's
assignment at an inherited `Object.prototype` name stores a non-ticket at a
non-station key, so no station's slot — and hence no ghost entry —
changes. -/
def ghostStep : Op → Sys → StMap (Option Ticket) → StMap (Option Ticket)
  | .callNext s _, sys, g =>
    match jsLookup s with
    | .own k =>
      match sys.engine.queues.get k with
      | t :: _ => g.set k (some t)
      | [] => g
    | _ => g
  | .recallLast s _, sys, g =>
    match jsLookup s with
    | .own k =>
      match sys.engine.lastServed.get k with
      | some t => g.set k (some t)
      | none => g
    | _ => g
  | .reset, _, _ => ghostInit
  | _, _, g => g

/-- States reachable from process start by mutating requests, paired with the
ghost record of the most recent `currentServing` assignments. -/
inductive ReachableG : Sys → StMap (Option Ticket) → Prop where
  | init : ReachableG initialSys ghostInit
  | step (op : Op) (sys : Sys) (g : StMap (Option Ticket)) :
      ReachableG sys g → ReachableG (applyOp op sys) (ghostStep op sys g)

/-- Initial letter of each configured station name. -/
def initialOf : StKey → String
  | .charging => "C"
  | .releasing => "R"
  | .extraction => "E"

/-- Station-level inductive invariant: `lastServed` and the ghost coincide
with `currentServing`; the waiting numbers are the station initial followed
by strictly increasing sequence values bounded by the counter; and the
current ticket's sequence value is bounded by the counter and below every
waiting sequence value. -/
def stInv (init : String) (q : List Ticket) (cur last : Option Ticket)
    (cnt : Nat) (g : Option Ticket) : Prop :=
  last = cur ∧ g = cur ∧
  ∃ ks : List Nat,
    q.map Ticket.number = ks.map (fun n => init ++ Nat.repr n) ∧
    ks.Pairwise (· < ·) ∧
    (∀ n ∈ ks, n ≤ cnt) ∧
    (∀ t, cur = some t → ∃ n0, t.number = init ++ Nat.repr n0 ∧ n0 ≤ cnt ∧ ∀ n ∈ ks, n0 < n)

/-- The invariant at every station. -/
def engineInv (σ : EngineState) (g : StMap (Option Ticket)) : Prop :=
  ∀ k : StKey, stInv (initialOf k) (σ.queues.get k) (σ.currentServing.get k)
    (σ.lastServed.get k) (σ.queueNumbers.get k) (g.get k)

/-- Numbers handed out by a run of enqueue requests (one `Date.now()` value
per request), all with successful persistence and no intervening reset. -/
def enqueueRun (service : String) : List Nat → Sys → List String × Sys
  | [], sys => ([], sys)
  | now :: rest, sys =>
    match postQueue service now true sys with
    | .ok (.issued num, sys2) =>
      let p := enqueueRun service rest sys2
      (num :: p.1, p.2)
    | _ => ([], sys)

/-- Fixture: the Charging queue at capacity with the counter already at the
capacity value. -/
def fullChargingSys : Sys :=
  { initialSys with engine := { initialEngine with
      queues := (StMap.const []).set .charging
        (List.replicate settings.maxQueueLength ⟨"C0", "Charging", 0⟩)
      queueNumbers := (StMap.const 0).set .charging settings.maxQueueLength } }

/-- Fixture: Charging has served (and retains as last served) ticket C1. -/
def servedOnceSys : Sys :=
  { initialSys with engine := { initialEngine with
      currentServing := (StMap.const none).set .charging (some ⟨"C1", "Charging", 3⟩)
      lastServed := (StMap.const none).set .charging (some ⟨"C1", "Charging", 3⟩)
      queueNumbers := (StMap.const 0).set .charging 1 } }

/-- The ticket `app.post('/queue')` constructs when the counter has been
advanced to `c`. -/
def newTicket (s : String) (c : Nat) (now : Nat) : Ticket :=
  ⟨stationInitialOf s ++ Nat.repr c, s, now⟩

/-- Expected engine after `generateQueueNumber` alone (enqueue hit a full
queue: only the counter moved). -/
def numberedEngine (σ : EngineState) (k : StKey) : EngineState :=
  { σ with queueNumbers := σ.queueNumbers.set k (σ.queueNumbers.get k + 1) }

/-- Expected engine after a stored enqueue: counter advanced and the ticket
appended to the tail of the station's waiting list. -/
def enqueuedEngine (σ : EngineState) (k : StKey) (t : Ticket) : EngineState :=
  { σ with
    queueNumbers := σ.queueNumbers.set k (σ.queueNumbers.get k + 1)
    queues := σ.queues.set k (σ.queues.get k ++ [t]) }

/-- Expected engine after a successful call-next that popped `t`, leaving
`rest` waiting. -/
def calledEngine (σ : EngineState) (k : StKey) (t : Ticket) (rest : List Ticket) : EngineState :=
  { σ with
    queues := σ.queues.set k rest
    currentServing := σ.currentServing.set k (some t)
    lastServed := σ.lastServed.set k (some t)
    servedHistory := σ.servedHistory ++ [t]
    totalServed := σ.totalServed + 1
    totalWaitTime := σ.totalWaitTime + settings.averageServiceTime }

/-- Expected engine after a successful recall of `t`. -/
def recalledEngine (σ : EngineState) (k : StKey) (t : Ticket) : EngineState :=
  { σ with currentServing := σ.currentServing.set k (some t) }

theorem StMap.get_set_self {α : Type} (m : StMap α) (k : StKey) (v : α) :
    (m.set k v).get k = v := by
  cases k <;> rfl

theorem StMap.get_set_ne {α : Type} (m : StMap α) (k j : StKey) (v : α) (h : j ≠ k) :
    (m.set k v).get j = m.get j := by
  cases k <;> cases j <;> first | rfl | exact absurd rfl h

theorem keyOf_eq_some {s : String} {k : StKey} (h : keyOf s = some k) : s = nameOf k := by
  unfold keyOf at h
  split_ifs at h with h1 h2 h3
  · injection h with h4; subst h4; exact h1
  · injection h with h4; subst h4; exact h2
  · injection h with h4; subst h4; exact h3

theorem stationInitialOf_nameOf (k : StKey) : stationInitialOf (nameOf k) = initialOf k := by
  cases k <;> rfl

theorem jsLookup_own (s : String) (k : StKey) (hk : keyOf s = some k) :
    jsLookup s = .own k := by
  unfold jsLookup
  rw [hk]

theorem keyOf_of_jsLookup_own {s : String} {k : StKey} (h : jsLookup s = .own k) :
    keyOf s = some k := by
  unfold jsLookup at h
  cases hk : keyOf s with
  | some k2 =>
    rw [hk] at h
    injection h with h2
    rw [h2]
  | none =>
    rw [hk] at h
    split_ifs at h

theorem jsLookup_classes (s : String) (h : keyOf s = none) :
    jsLookup s = .protoObj ∨ jsLookup s = .protoFn ∨ jsLookup s = .absent := by
  unfold jsLookup
  rw [h]
  split_ifs <;> simp

theorem keyOf_none_of_protoFn {s : String} (h : jsLookup s = .protoFn) : keyOf s = none := by
  cases hk : keyOf s with
  | none => rfl
  | some k => rw [jsLookup_own s k hk] at h; exact JsLookup.noConfusion h

theorem keyOf_none_of_protoObj {s : String} (h : jsLookup s = .protoObj) : keyOf s = none := by
  cases hk : keyOf s with
  | none => rfl
  | some k => rw [jsLookup_own s k hk] at h; exact JsLookup.noConfusion h

theorem keyOf_none_of_absent {s : String} (h : jsLookup s = .absent) : keyOf s = none := by
  cases hk : keyOf s with
  | none => rfl
  | some k => rw [jsLookup_own s k hk] at h; exact JsLookup.noConfusion h

/-- Recall answers "Nothing to recall." exactly when the `lastServed`
lookup is falsy: either the key is genuinely undefined (not a station and
not an inherited `Object.prototype` name) or it is a configured station
whose slot is null. -/
theorem postRecall_none (s : String) (w : Bool) (sys : Sys)
    (h : jsLookup s = .absent ∨
      ∃ k, jsLookup s = .own k ∧ sys.engine.lastServed.get k = none) :
    postRecall s w sys = .ok (.nothingToRecall, sys) := by
  rcases h with h | ⟨k, hk, hl⟩
  · simp only [postRecall, h]
  · simp only [postRecall, hk, hl]

theorem postQueue_unknown (s : String) (now : Nat) (w : Bool) (sys : Sys)
    (h : jsLookup s = .absent) :
    postQueue s now w sys = .ok (.invalidService, sys) := by
  simp only [postQueue, h]

theorem postQueue_space (s : String) (k : StKey) (now : Nat) (w : Bool) (sys : Sys)
    (hk : keyOf s = some k)
    (hlen : (sys.engine.queues.get k).length < settings.maxQueueLength) :
    postQueue s now w sys =
      (saveState w { sys with engine := enqueuedEngine sys.engine k (newTicket s (sys.engine.queueNumbers.get k + 1) now) }).map
        (fun sys2 => (.issued (stationInitialOf s ++ Nat.repr (sys.engine.queueNumbers.get k + 1)), sys2)) := by
  simp only [postQueue, generateQueueNumber, addToQueue, jsLookup_own s k hk]
  rw [if_pos hlen]
  rfl

theorem postQueue_full (s : String) (k : StKey) (now : Nat) (w : Bool) (sys : Sys)
    (hk : keyOf s = some k)
    (hlen : ¬ (sys.engine.queues.get k).length < settings.maxQueueLength) :
    postQueue s now w sys =
      .ok (.issued (stationInitialOf s ++ Nat.repr (sys.engine.queueNumbers.get k + 1)),
           { sys with engine := numberedEngine sys.engine k }) := by
  simp only [postQueue, generateQueueNumber, addToQueue, jsLookup_own s k hk]
  rw [if_neg hlen]
  rfl

theorem callNextNumber_unknown (s : String) (w : Bool) (sys : Sys) (h : keyOf s = none) :
    callNextNumber s w sys = .error (.typeError, sys) := by
  rcases jsLookup_classes s h with h2 | h2 | h2 <;> simp only [callNextNumber, h2]

theorem callNextNumber_nil (s : String) (k : StKey) (w : Bool) (sys : Sys)
    (hk : keyOf s = some k) (hq : sys.engine.queues.get k = []) :
    callNextNumber s w sys = .ok (none, sys) := by
  simp only [callNextNumber, jsLookup_own s k hk, hq]

theorem callNextNumber_cons (s : String) (k : StKey) (w : Bool) (sys : Sys)
    (t : Ticket) (rest : List Ticket)
    (hk : keyOf s = some k) (hq : sys.engine.queues.get k = t :: rest) :
    callNextNumber s w sys =
      (saveState w (notifyClients ("Now serving number " ++ t.number ++ " at " ++ s)
          { sys with engine := calledEngine sys.engine k t rest })).map
        (fun sys2 => (some t, sys2)) := by
  simp only [callNextNumber, jsLookup_own s k hk, hq]
  rfl

theorem postRecall_some (s : String) (k : StKey) (w : Bool) (sys : Sys) (t : Ticket)
    (hk : keyOf s = some k) (hl : sys.engine.lastServed.get k = some t) :
    postRecall s w sys =
      (saveState w (notifyClients ("Now serving number " ++ t.number ++ " at " ++ s)
          { sys with engine := recalledEngine sys.engine k t })).map
        (fun sys3 => (.recalled t.number, sys3)) := by
  simp only [postRecall, jsLookup_own s k hk, hl]
  rfl

theorem postQueue_protoFn (s : String) (now : Nat) (w : Bool) (sys : Sys)
    (h : jsLookup s = .protoFn) :
    postQueue s now w sys =
      .error (.typeError,
        { sys with engine := { sys.engine with nanCounters := jsInsert s sys.engine.nanCounters } }) := by
  simp only [postQueue, generateQueueNumber, addToQueue, h]
  rfl

theorem postQueue_protoObj (s : String) (now : Nat) (w : Bool) (sys : Sys)
    (h : jsLookup s = .protoObj) :
    postQueue s now w sys = .ok (.issued (stationInitialOf s ++ "NaN"), sys) := by
  simp only [postQueue, generateQueueNumber, addToQueue, h]
  rfl

theorem postRecall_protoFn (s : String) (w : Bool) (sys : Sys) (h : jsLookup s = .protoFn) :
    postRecall s w sys =
      (saveState w (notifyClients ("Now serving number undefined at " ++ s)
          { sys with engine := { sys.engine with servingJunk := jsInsert s sys.engine.servingJunk } })).map
        (fun sys3 => (.recalledUndefined, sys3)) := by
  simp only [postRecall, h]

theorem postRecall_protoObj (s : String) (w : Bool) (sys : Sys) (h : jsLookup s = .protoObj) :
    postRecall s w sys =
      (saveState w (notifyClients ("Now serving number undefined at " ++ s) sys)).map
        (fun sys3 => (.recalledUndefined, sys3)) := by
  simp only [postRecall, h]

theorem postAnnouncement_eq (text : String) (w : Bool) (sys : Sys) :
    postAnnouncement text w sys =
      saveState w (notifyClients ("New Announcement: " ++ text)
        { sys with engine := { sys.engine with currentAnnouncement := text } }) := rfl

/-- C1, counterexample: calling next for the unconfigured station "Lounge"
does not yield an `UnknownStation`-style error response; it raises an
unchecked fault — the TypeError thrown by `queues["Lounge"].shift()` in
`callNextNumber` (server.js 110), which `app.post('/call')` never guards
against.  This refutes the claim that `CallNext` fails with `UnknownStation`
and that no engine operation throws an unchecked fault for malformed
station input. -/
theorem c1_counterexample :
    postCall "Lounge" true initialSys = .error (.typeError, initialSys) := rfl

/-- C1, amended: CallNext raises an unchecked fault (TypeError) for every
unconfigured input.  Enqueue answers the `UnknownStation`-style 400
"Invalid service" and Recall answers `NothingToRecall` — both with no state
change — exactly for those unconfigured inputs on which the lookup is
genuinely undefined.  For property names inherited from `Object.prototype`
the truthiness guards pass instead: Enqueue at such a name throws a
TypeError, but only after creating a NaN counter entry, at `"__proto__"` it
even answers 200 with number "_NaN", and Recall takes the success path
rather than failing. -/
theorem c1_amended (s : String) (now : Nat) (w : Bool) (sys : Sys) :
    (keyOf s = none → postCall s w sys = .error (.typeError, sys)) ∧
    (jsLookup s = .absent →
      postQueue s now w sys = .ok (.invalidService, sys) ∧
      postRecall s w sys = .ok (.nothingToRecall, sys)) ∧
    (jsLookup s = .protoFn →
      postQueue s now w sys =
        .error (.typeError,
          { sys with engine := { sys.engine with nanCounters := jsInsert s sys.engine.nanCounters } }) ∧
      postRecall s true sys =
        .ok (.recalledUndefined,
          { engine := { sys.engine with servingJunk := jsInsert s sys.engine.servingJunk }
            snapshot := some (serializeState { sys.engine with servingJunk := jsInsert s sys.engine.servingJunk })
            broadcasts := sys.broadcasts ++ ["Now serving number undefined at " ++ s] })) ∧
    (jsLookup s = .protoObj →
      postQueue s now w sys = .ok (.issued (stationInitialOf s ++ "NaN"), sys)) := by
  refine ⟨?_, ?_, ?_, ?_⟩
  · intro h
    unfold postCall
    rw [callNextNumber_unknown s w sys h]
    rfl
  · intro h
    exact ⟨postQueue_unknown s now w sys h, postRecall_none s w sys (.inl h)⟩
  · intro h
    refine ⟨postQueue_protoFn s now w sys h, ?_⟩
    rw [postRecall_protoFn s true sys h]
    rfl
  · intro h
    exact postQueue_protoObj s now w sys h

theorem c1_amended_witness :
    postCall "Lounge" true initialSys = .error (.typeError, initialSys) ∧
    postQueue "Lounge" 0 true initialSys = .ok (.invalidService, initialSys) ∧
    postRecall "Lounge" true initialSys = .ok (.nothingToRecall, initialSys) ∧
    postQueue "toString" 0 true initialSys =
      .error (.typeError,
        { initialSys with engine := { initialEngine with nanCounters := ["toString"] } }) ∧
    postQueue "__proto__" 0 true initialSys = .ok (.issued "_NaN", initialSys) := by
  have hL := c1_amended "Lounge" 0 true initialSys
  have hT := c1_amended "toString" 0 true initialSys
  have hP := c1_amended "__proto__" 0 true initialSys
  exact ⟨hL.1 rfl, (hL.2.1 rfl).1, (hL.2.1 rfl).2, (hT.2.2.1 rfl).1, hP.2.2.2 rfl⟩

/-- C2, counterexample: with the durable write failing, a fresh
`Enqueue("Charging")` does not leave the caller's result unaffected.  The
write exception escapes `saveState` (server.js 49-61 has no try/catch) and
the handler run ends in a fault — the caller gets HTTP 500, not the issued
number "C1" that the same request answers under a successful write. -/
theorem c2_counterexample :
    postQueue "Charging" 0 false initialSys =
      .error (.persistFailed,
        { initialSys with engine := enqueuedEngine initialEngine .charging (newTicket "Charging" 1 0) }) ∧
    postQueue "Charging" 0 true initialSys =
      .ok (.issued "C1",
        { engine := enqueuedEngine initialEngine .charging (newTicket "Charging" 1 0)
          snapshot := some (enqueuedEngine initialEngine .charging (newTicket "Charging" 1 0))
          broadcasts := [] }) :=
  ⟨rfl, rfl⟩

/-- C2, amended: for every mutating operation that reaches its persistence
step (Enqueue storing a ticket, successful CallNext, successful Recall,
SetAnnouncement), a failed persistence write leaves the in-memory mutation
in place — the resulting state is exactly the state of a successful run
except that the snapshot file keeps its previous contents — but the failure
is not caught or logged by the operation: it propagates to the caller as an
unchecked fault, so the externally visible result is an error instead of
the normal response. -/
theorem c2_amended (sys : Sys) :
    (∀ s k now, keyOf s = some k →
      (sys.engine.queues.get k).length < settings.maxQueueLength →
      postQueue s now false sys =
        .error (.persistFailed, { applyOp (.enqueue s now true) sys with snapshot := sys.snapshot })) ∧
    (∀ s k t rest, keyOf s = some k → sys.engine.queues.get k = t :: rest →
      postCall s false sys =
        .error (.persistFailed, { applyOp (.callNext s true) sys with snapshot := sys.snapshot })) ∧
    (∀ s k t, keyOf s = some k → sys.engine.lastServed.get k = some t →
      postRecall s false sys =
        .error (.persistFailed, { applyOp (.recallLast s true) sys with snapshot := sys.snapshot })) ∧
    (∀ text, postAnnouncement text false sys =
        .error (.persistFailed, { applyOp (.announce text true) sys with snapshot := sys.snapshot })) := by
  refine ⟨?_, ?_, ?_, ?_⟩
  · intro s k now hk hlen
    rw [postQueue_space s k now false sys hk hlen]
    show _ = .error (.persistFailed, { runOut (postQueue s now true sys) with snapshot := sys.snapshot })
    rw [postQueue_space s k now true sys hk hlen]
    rfl
  · intro s k t rest hk hq
    show Except.map _ (callNextNumber s false sys) = _
    rw [callNextNumber_cons s k false sys t rest hk hq]
    show _ = .error (.persistFailed, { runOut (postCall s true sys) with snapshot := sys.snapshot })
    show _ = .error (.persistFailed,
      { runOut (Except.map _ (callNextNumber s true sys)) with snapshot := sys.snapshot })
    rw [callNextNumber_cons s k true sys t rest hk hq]
    rfl
  · intro s k t hk hl
    rw [postRecall_some s k false sys t hk hl]
    show _ = .error (.persistFailed, { runOut (postRecall s true sys) with snapshot := sys.snapshot })
    rw [postRecall_some s k true sys t hk hl]
    rfl
  · intro text
    rfl

theorem c2_amended_witness :
    postCall "Charging" false
        { initialSys with engine := { initialEngine with
            queues := (StMap.const []).set .charging [⟨"C1", "Charging", 2⟩]
            queueNumbers := (StMap.const 0).set .charging 1 } } =
      .error (.persistFailed,
        { applyOp (.callNext "Charging" true)
            { initialSys with engine := { initialEngine with
                queues := (StMap.const []).set .charging [⟨"C1", "Charging", 2⟩]
                queueNumbers := (StMap.const 0).set .charging 1 } } with
          snapshot := none }) :=
  (c2_amended _).2.1 "Charging" .charging ⟨"C1", "Charging", 2⟩ [] rfl rfl

/-- C3: with `service` a configured station whose queue is at (or beyond)
capacity, Enqueue still advances the sequence counter (the number is minted
before the capacity check), silently drops the ticket (waiting list and
snapshot untouched, no error in the response), and still answers the
freshly minted number; below capacity the ticket is appended to the tail of
the waiting list and the whole engine state is persisted. -/
theorem c3_enqueue_capacity (s : String) (k : StKey) (now : Nat) (sys : Sys)
    (hk : keyOf s = some k) :
    (settings.maxQueueLength ≤ (sys.engine.queues.get k).length →
      postQueue s now true sys =
        .ok (.issued (stationInitialOf s ++ Nat.repr (sys.engine.queueNumbers.get k + 1)),
             { sys with engine := numberedEngine sys.engine k })) ∧
    ((sys.engine.queues.get k).length < settings.maxQueueLength →
      postQueue s now true sys =
        .ok (.issued (stationInitialOf s ++ Nat.repr (sys.engine.queueNumbers.get k + 1)),
             { engine := enqueuedEngine sys.engine k (newTicket s (sys.engine.queueNumbers.get k + 1) now)
               snapshot := some (serializeState (enqueuedEngine sys.engine k (newTicket s (sys.engine.queueNumbers.get k + 1) now)))
               broadcasts := sys.broadcasts })) := by
  constructor
  · intro hge
    exact postQueue_full s k now true sys hk (by omega)
  · intro hlt
    rw [postQueue_space s k now true sys hk hlt]
    rfl

theorem c3_enqueue_capacity_witness :
    postQueue "Charging" 9 true fullChargingSys =
      .ok (.issued "C101", { fullChargingSys with engine := numberedEngine fullChargingSys.engine .charging }) :=
  (c3_enqueue_capacity "Charging" .charging 9 fullChargingSys rfl).1 (by decide)

/-- C4: CallNext on a configured station with an empty waiting list answers
the "no ticket" result `{current: null}` and returns the state verbatim —
`currentServing`, `lastServed`, `servedHistory`, `totalServed`,
`totalWaitTime`, broadcasts and the persisted snapshot all unchanged. -/
theorem c4_callnext_empty (s : String) (k : StKey) (w : Bool) (sys : Sys)
    (hk : keyOf s = some k) (hq : sys.engine.queues.get k = []) :
    postCall s w sys = .ok (.noTicket, sys) ∧
    callNextNumber s w sys = .ok (none, sys) := by
  have h2 := callNextNumber_nil s k w sys hk hq
  refine ⟨?_, h2⟩
  unfold postCall
  rw [h2]
  rfl

theorem c4_callnext_empty_witness :
    postCall "Extraction" true initialSys = .ok (.noTicket, initialSys) ∧
    callNextNumber "Extraction" true initialSys = .ok (none, initialSys) :=
  c4_callnext_empty "Extraction" .extraction true initialSys rfl rfl

/-- C7: for a configured station, Recall fails with `NothingToRecall`
exactly when `lastServed` is none; otherwise it answers the last served
ticket's number, re-assigns that ticket to `currentServing`, and changes
nothing else — every waiting list and `lastServed` itself are untouched
(the persisted snapshot and the broadcast log advance as on any successful
mutation). -/
theorem c7_recall (s : String) (k : StKey) (sys : Sys) (hk : keyOf s = some k) :
    (sys.engine.lastServed.get k = none →
      postRecall s true sys = .ok (.nothingToRecall, sys)) ∧
    (∀ t, sys.engine.lastServed.get k = some t →
      postRecall s true sys =
        .ok (.recalled t.number,
          { engine := recalledEngine sys.engine k t
            snapshot := some (serializeState (recalledEngine sys.engine k t))
            broadcasts := sys.broadcasts ++ ["Now serving number " ++ t.number ++ " at " ++ s] })) := by
  constructor
  · intro hl
    exact postRecall_none s true sys (.inr ⟨k, jsLookup_own s k hk, hl⟩)
  · intro t hl
    rw [postRecall_some s k true sys t hk hl]
    rfl

theorem c7_recall_witness :
    postRecall "Charging" true servedOnceSys =
      .ok (.recalled "C1",
        { engine := recalledEngine servedOnceSys.engine .charging ⟨"C1", "Charging", 3⟩
          snapshot := some (serializeState (recalledEngine servedOnceSys.engine .charging ⟨"C1", "Charging", 3⟩))
          broadcasts := ["Now serving number C1 at Charging"] }) :=
  (c7_recall "Charging" .charging servedOnceSys rfl).2 ⟨"C1", "Charging", 3⟩ rfl

/-- C8: reset reinstates every station's initial sub-state and the global
counters and announcement, deletes the persisted snapshot, and broadcasts
nothing (the broadcast log is returned verbatim); a status read immediately
afterwards reports every station as current none / empty waiting /
estimated wait 0, and the announcement reads back empty. -/
theorem c8_reset (sys : Sys) :
    postResetQueue sys = { engine := initialEngine, snapshot := none, broadcasts := sys.broadcasts } ∧
    getQueueStatus (postResetQueue sys) =
      StMap.const { current := none, waiting := [], estimatedWaitTime := 0 } ∧
    getAnnouncement (postResetQueue sys) = "" :=
  ⟨rfl, rfl, rfl⟩

/-- C9: export answers `NoDataToExport` exactly when every station's waiting
list is empty; otherwise it answers the rows, one `{service, number}` pair
per waiting ticket (only waiting tickets contribute — the row count is the
sum of the waiting-list lengths, and `currentServing` and `servedHistory`
never appear); on a fresh engine after a single `Enqueue("Releasing")` it
answers exactly the one row `("Releasing", "R1")`.  `getExport` is a pure
read by construction (it produces no state). -/
theorem c9_export (sys : Sys) :
    (getExport sys = .noData ↔
      sys.engine.queues.get .charging = [] ∧ sys.engine.queues.get .releasing = [] ∧
        sys.engine.queues.get .extraction = []) ∧
    (getExport sys ≠ .noData → getExport sys = .csv (exportRows sys.engine)) ∧
    (exportRows sys.engine).length =
      ((sys.engine.queues.get .charging).length + (sys.engine.queues.get .releasing).length) +
        (sys.engine.queues.get .extraction).length ∧
    (postQueue "Releasing" 0 true initialSys).map (fun r => getExport r.2) =
      .ok (.csv [("Releasing", "R1")]) := by
  have hiff : exportRows sys.engine = [] ↔
      (sys.engine.queues.get .charging = [] ∧ sys.engine.queues.get .releasing = [] ∧
        sys.engine.queues.get .extraction = []) := by
    unfold exportRows
    simp [List.append_eq_nil, List.map_eq_nil_iff, and_assoc]
  refine ⟨?_, ?_, ?_, rfl⟩
  · unfold getExport
    by_cases he : exportRows sys.engine = []
    · rw [if_pos he]
      constructor
      · intro _
        exact hiff.mp he
      · intro _
        rfl
    · rw [if_neg he]
      constructor
      · intro hcontr
        exact absurd hcontr (by simp)
      · intro hthree
        exact absurd (hiff.mpr hthree) he
  · intro h
    unfold getExport at h ⊢
    by_cases he : exportRows sys.engine = []
    · rw [if_pos he] at h
      exact absurd rfl h
    · rw [if_neg he]
  · unfold exportRows
    simp
    omega

/-- C9 witness for the hypothesised middle conjunct. -/
theorem c9_export_witness :
    getExport servedOnceSys = .noData ∧
    (getExport fullChargingSys ≠ ExportResult.noData) ∧
    getExport fullChargingSys = .csv (exportRows fullChargingSys.engine) := by
  refine ⟨(c9_export servedOnceSys).1.mpr ⟨rfl, rfl, rfl⟩, by decide, ?_⟩
  exact (c9_export fullChargingSys).2.1 (by decide)

/-- C10, counterexample: `"toString"` is not a configured station and no
ticket has ever been served anywhere, yet Recall("toString") neither fails
with `NothingToRecall` nor leaves the state unchanged: the inherited
`Object.prototype.toString` is truthy, so the handler takes the success
path — it stores the inherited function as an own property of
`currentServing`, broadcasts "Now serving number undefined at toString",
persists, and answers 200 with an `undefined` last number. -/
theorem c10_counterexample :
    postRecall "toString" true initialSys =
      .ok (.recalledUndefined,
        { engine := { initialEngine with servingJunk := ["toString"] }
          snapshot := some initialEngine
          broadcasts := ["Now serving number undefined at toString"] }) := rfl

/-- C10, amended: for every input string on which the `lastServed[s]`
lookup is genuinely falsy — `s` neither a configured station with a served
ticket nor an `Object.prototype` property name — Recall answers
`NothingToRecall` (never `UnknownStation`, never an unchecked fault) and
returns the engine state, persisted snapshot and broadcast log verbatim.
For inherited property names the truthy inherited value defeats the guard
and Recall instead takes the success path: it records a junk own property
on `currentServing`, broadcasts, persists, and answers 200 with an
`undefined` last number. -/
theorem c10_recall_missing (s : String) (w : Bool) (sys : Sys) :
    (jsLookup s = .absent ∨ (∃ k, jsLookup s = .own k ∧ sys.engine.lastServed.get k = none) →
      postRecall s w sys = .ok (.nothingToRecall, sys)) ∧
    (jsLookup s = .protoFn →
      postRecall s true sys =
        .ok (.recalledUndefined,
          { engine := { sys.engine with servingJunk := jsInsert s sys.engine.servingJunk }
            snapshot := some (serializeState { sys.engine with servingJunk := jsInsert s sys.engine.servingJunk })
            broadcasts := sys.broadcasts ++ ["Now serving number undefined at " ++ s] })) := by
  constructor
  · exact postRecall_none s w sys
  · intro h
    rw [postRecall_protoFn s true sys h]
    rfl

theorem c10_recall_missing_witness :
    postRecall "Atrium" false initialSys = .ok (.nothingToRecall, initialSys) ∧
    postRecall "valueOf" true servedOnceSys =
      .ok (.recalledUndefined,
        { engine := { servedOnceSys.engine with servingJunk := ["valueOf"] }
          snapshot := some { servedOnceSys.engine with servingJunk := [] }
          broadcasts := ["Now serving number undefined at valueOf"] }) :=
  ⟨(c10_recall_missing "Atrium" false initialSys).1 (.inl rfl),
   (c10_recall_missing "valueOf" true servedOnceSys).2 rfl⟩

/-- Accumulator lemma for core's digit printer. -/
theorem toDigitsCore_append (b : Nat) :
    ∀ (f n : Nat) (ds : List Char),
      Nat.toDigitsCore b f n ds = Nat.toDigitsCore b f n [] ++ ds := by
  intro f
  induction f with
  | zero => intro n ds; simp [Nat.toDigitsCore]
  | succ f ih =>
    intro n ds
    simp only [Nat.toDigitsCore]
    by_cases h : n / b = 0
    · simp [h]
    · simp only [h, if_false]
      rw [ih (n / b) [Nat.digitChar (n % b)], ih (n / b) (Nat.digitChar (n % b) :: ds)]
      simp

theorem toDigitsCore_eq_digits (b : Nat) (hb : 1 < b) :
    ∀ (n : Nat), 0 < n → ∀ (f : Nat), n < f →
      Nat.toDigitsCore b f n [] = ((Nat.digits b n).map Nat.digitChar).reverse := by
  intro n
  induction n using Nat.strong_induction_on with
  | _ n ih =>
    intro hn f hf
    match f, hf with
    | f + 1, hf =>
      simp only [Nat.toDigitsCore]
      by_cases h : n / b = 0
      · rw [if_pos h]
        rw [Nat.digits_def' hb hn]
        have h0 : Nat.digits b (n / b) = [] := by rw [h]; simp
        rw [h0]
        simp
      · rw [if_neg h]
        rw [toDigitsCore_append b f (n / b) [Nat.digitChar (n % b)]]
        have hdivlt : n / b < n := Nat.div_lt_self hn hb
        have hpos : 0 < n / b := Nat.pos_of_ne_zero h
        have hflt : n / b < f := lt_of_lt_of_le hdivlt (Nat.lt_succ_iff.mp hf)
        rw [ih (n / b) hdivlt hpos f hflt]
        rw [Nat.digits_def' hb hn]
        simp

theorem toDigits_eq_digits (n : Nat) (hn : 0 < n) :
    Nat.toDigits 10 n = ((Nat.digits 10 n).map Nat.digitChar).reverse :=
  toDigitsCore_eq_digits 10 (by decide) n hn (n + 1) (Nat.lt_succ_self n)

theorem digitChar_inj_lt : ∀ x, x < 10 → ∀ y, y < 10 → Nat.digitChar x = Nat.digitChar y → x = y := by
  decide

theorem map_digitChar_inj :
    ∀ (l1 l2 : List Nat), (∀ x ∈ l1, x < 10) → (∀ x ∈ l2, x < 10) →
      l1.map Nat.digitChar = l2.map Nat.digitChar → l1 = l2 := by
  intro l1
  induction l1 with
  | nil => intro l2 _ _ h; cases l2 <;> simp_all
  | cons a l ih =>
    intro l2 h1 h2 h
    cases l2 with
    | nil => simp at h
    | cons c l2' =>
      simp only [List.map_cons, List.cons.injEq] at h
      have ha := digitChar_inj_lt a (h1 a (by simp)) c (h2 c (by simp)) h.1
      have hl := ih l2' (fun x hx => h1 x (by simp [hx])) (fun x hx => h2 x (by simp [hx])) h.2
      rw [ha, hl]


theorem toDigits_ne_singleton_zero (n : Nat) (hn : 0 < n) : Nat.toDigits 10 n ≠ ['0'] := by
  intro hd
  rw [toDigits_eq_digits n hn] at hd
  have hrev : (Nat.digits 10 n).map Nat.digitChar = ['0'] := by
    have h2 := congrArg List.reverse hd
    simpa using h2
  have hdig : Nat.digits 10 n = [0] := by
    apply map_digitChar_inj
    · intro x hx; exact Nat.digits_lt_base (by decide) hx
    · intro x hx; simp at hx; omega
    · simpa using hrev
  have hof := Nat.ofDigits_digits 10 n
  rw [hdig] at hof
  simp [Nat.ofDigits] at hof
  omega

theorem repr_injective : Function.Injective Nat.repr := by
  intro m n h
  have hdata : Nat.toDigits 10 m = Nat.toDigits 10 n := congrArg String.data h
  have hzero : Nat.toDigits 10 0 = ['0'] := by decide
  rcases Nat.eq_zero_or_pos m with hm | hm <;> rcases Nat.eq_zero_or_pos n with hn | hn
  · rw [hm, hn]
  · exact absurd (by rw [← hdata, hm, hzero]) (toDigits_ne_singleton_zero n hn)
  · exact absurd (by rw [hdata, hn, hzero]) (toDigits_ne_singleton_zero m hm)
  · rw [toDigits_eq_digits m hm, toDigits_eq_digits n hn] at hdata
    have hmap : (Nat.digits 10 m).map Nat.digitChar = (Nat.digits 10 n).map Nat.digitChar := by
      have h2 := congrArg List.reverse hdata
      simpa using h2
    have hdig : Nat.digits 10 m = Nat.digits 10 n := by
      apply map_digitChar_inj
      · intro x hx; exact Nat.digits_lt_base (by decide) hx
      · intro x hx; exact Nat.digits_lt_base (by decide) hx
      · exact hmap
    have hm2 := Nat.ofDigits_digits 10 m
    have hn2 := Nat.ofDigits_digits 10 n
    rw [hdig] at hm2
    rw [hn2] at hm2
    exact hm2.symm

theorem string_append_left_cancel {s a b : String} (h : s ++ a = s ++ b) : a = b := by
  have hd := congrArg String.data h
  rw [String.data_append, String.data_append] at hd
  exact congrArg String.mk (List.append_cancel_left hd)

theorem repr_append_inj {s : String} {m n : Nat} (h : s ++ Nat.repr m = s ++ Nat.repr n) : m = n :=
  repr_injective (string_append_left_cancel h)

theorem runOut_postCall (s : String) (w : Bool) (sys : Sys) :
    runOut (postCall s w sys) = runOut (callNextNumber s w sys) := by
  unfold postCall
  cases h : callNextNumber s w sys with
  | ok p =>
    obtain ⟨o, sys2⟩ := p
    cases o <;> rfl
  | error e => rfl

theorem applyOp_enqueue_engine (s : String) (now : Nat) (w : Bool) (sys : Sys) :
    (applyOp (.enqueue s now w) sys).engine =
      match jsLookup s with
      | .own k =>
        if (sys.engine.queues.get k).length < settings.maxQueueLength
        then enqueuedEngine sys.engine k (newTicket s (sys.engine.queueNumbers.get k + 1) now)
        else numberedEngine sys.engine k
      | .protoFn => { sys.engine with nanCounters := jsInsert s sys.engine.nanCounters }
      | .protoObj => sys.engine
      | .absent => sys.engine := by
  cases hj : jsLookup s with
  | own k =>
    have hk := keyOf_of_jsLookup_own hj
    show (applyOp (.enqueue s now w) sys).engine =
      (if (sys.engine.queues.get k).length < settings.maxQueueLength
       then enqueuedEngine sys.engine k (newTicket s (sys.engine.queueNumbers.get k + 1) now)
       else numberedEngine sys.engine k)
    by_cases hlen : (sys.engine.queues.get k).length < settings.maxQueueLength
    · rw [if_pos hlen]
      simp only [applyOp, postQueue_space s k now w sys hk hlen]
      cases w <;> rfl
    · rw [if_neg hlen]
      simp only [applyOp, postQueue_full s k now w sys hk hlen, runOut]
  | protoFn => simp only [applyOp, postQueue_protoFn s now w sys hj, runOut]
  | protoObj => simp only [applyOp, postQueue_protoObj s now w sys hj, runOut]
  | absent => simp only [applyOp, postQueue_unknown s now w sys hj, runOut]

theorem applyOp_callNext_engine (s : String) (w : Bool) (sys : Sys) :
    (applyOp (.callNext s w) sys).engine =
      match jsLookup s with
      | .own k =>
        match sys.engine.queues.get k with
        | [] => sys.engine
        | t :: rest => calledEngine sys.engine k t rest
      | _ => sys.engine := by
  have happ : (applyOp (.callNext s w) sys).engine = (runOut (callNextNumber s w sys)).engine := by
    show (runOut (postCall s w sys)).engine = _
    rw [runOut_postCall]
  rw [happ]
  cases hj : jsLookup s with
  | own k =>
    have hk := keyOf_of_jsLookup_own hj
    show (runOut (callNextNumber s w sys)).engine =
      match sys.engine.queues.get k with
      | [] => sys.engine
      | t :: rest => calledEngine sys.engine k t rest
    cases hq : sys.engine.queues.get k with
    | nil =>
      rw [callNextNumber_nil s k w sys hk hq]
      rfl
    | cons t rest =>
      rw [callNextNumber_cons s k w sys t rest hk hq]
      cases w <;> rfl
  | protoFn =>
    rw [callNextNumber_unknown s w sys (keyOf_none_of_protoFn hj)]
    rfl
  | protoObj =>
    rw [callNextNumber_unknown s w sys (keyOf_none_of_protoObj hj)]
    rfl
  | absent =>
    rw [callNextNumber_unknown s w sys (keyOf_none_of_absent hj)]
    rfl

theorem applyOp_recall_engine (s : String) (w : Bool) (sys : Sys) :
    (applyOp (.recallLast s w) sys).engine =
      match jsLookup s with
      | .own k =>
        match sys.engine.lastServed.get k with
        | none => sys.engine
        | some t => recalledEngine sys.engine k t
      | .protoFn => { sys.engine with servingJunk := jsInsert s sys.engine.servingJunk }
      | _ => sys.engine := by
  cases hj : jsLookup s with
  | own k =>
    show (runOut (postRecall s w sys)).engine =
      match sys.engine.lastServed.get k with
      | none => sys.engine
      | some t => recalledEngine sys.engine k t
    cases hl : sys.engine.lastServed.get k with
    | none =>
      rw [postRecall_none s w sys (.inr ⟨k, hj, hl⟩)]
      rfl
    | some t =>
      rw [postRecall_some s k w sys t (keyOf_of_jsLookup_own hj) hl]
      cases w <;> rfl
  | protoFn =>
    show (runOut (postRecall s w sys)).engine = _
    rw [postRecall_protoFn s w sys hj]
    cases w <;> rfl
  | protoObj =>
    show (runOut (postRecall s w sys)).engine = sys.engine
    rw [postRecall_protoObj s w sys hj]
    cases w <;> rfl
  | absent =>
    show (runOut (postRecall s w sys)).engine = sys.engine
    rw [postRecall_none s w sys (.inl hj)]
    rfl

theorem applyOp_announce_engine (text : String) (w : Bool) (sys : Sys) :
    (applyOp (.announce text w) sys).engine =
      { sys.engine with currentAnnouncement := text } := by
  show (runOutA (postAnnouncement text w sys)).engine = _
  rw [postAnnouncement_eq]
  cases w <;> rfl

theorem applyOp_reset_engine (sys : Sys) :
    (applyOp .reset sys).engine = initialEngine := rfl

/-- Counters never decrease across any non-reset operation. -/
theorem applyOp_counter_mono (op : Op) (sys : Sys) (k : StKey) (hop : op ≠ Op.reset) :
    sys.engine.queueNumbers.get k ≤ (applyOp op sys).engine.queueNumbers.get k := by
  cases op with
  | enqueue s now w =>
    rw [applyOp_enqueue_engine]
    cases hj : jsLookup s with
    | own k2 =>
      show sys.engine.queueNumbers.get k ≤
        ((if (sys.engine.queues.get k2).length < settings.maxQueueLength
          then enqueuedEngine sys.engine k2 (newTicket s (sys.engine.queueNumbers.get k2 + 1) now)
          else numberedEngine sys.engine k2)).queueNumbers.get k
      have hsub : sys.engine.queueNumbers.get k ≤
          (sys.engine.queueNumbers.set k2 (sys.engine.queueNumbers.get k2 + 1)).get k := by
        by_cases hkk : k = k2
        · subst hkk
          rw [StMap.get_set_self]
          exact Nat.le_succ _
        · rw [StMap.get_set_ne _ _ _ _ hkk]
      by_cases hlen : (sys.engine.queues.get k2).length < settings.maxQueueLength
      · rw [if_pos hlen]; exact hsub
      · rw [if_neg hlen]; exact hsub
    | protoFn =>
      show sys.engine.queueNumbers.get k ≤
        ({ sys.engine with nanCounters := jsInsert s sys.engine.nanCounters }).queueNumbers.get k
      exact le_refl _
    | protoObj => exact le_refl _
    | absent => exact le_refl _
  | callNext s w =>
    rw [applyOp_callNext_engine]
    cases hj : jsLookup s with
    | own k2 =>
      show sys.engine.queueNumbers.get k ≤
        (match sys.engine.queues.get k2 with
         | [] => sys.engine
         | t :: rest => calledEngine sys.engine k2 t rest).queueNumbers.get k
      cases hq : sys.engine.queues.get k2 with
      | nil => exact le_refl _
      | cons t rest => exact le_refl _
    | protoFn => exact le_refl _
    | protoObj => exact le_refl _
    | absent => exact le_refl _
  | recallLast s w =>
    rw [applyOp_recall_engine]
    cases hj : jsLookup s with
    | own k2 =>
      show sys.engine.queueNumbers.get k ≤
        (match sys.engine.lastServed.get k2 with
         | none => sys.engine
         | some t => recalledEngine sys.engine k2 t).queueNumbers.get k
      cases hl : sys.engine.lastServed.get k2 with
      | none => exact le_refl _
      | some t => exact le_refl _
    | protoFn =>
      show sys.engine.queueNumbers.get k ≤
        ({ sys.engine with servingJunk := jsInsert s sys.engine.servingJunk }).queueNumbers.get k
      exact le_refl _
    | protoObj => exact le_refl _
    | absent => exact le_refl _
  | announce text w =>
    rw [applyOp_announce_engine]
  | reset => exact absurd rfl hop

theorem postQueue_counter (s : String) (k : StKey) (now : Nat) (sys : Sys) (hk : keyOf s = some k) :
    ∃ sys2, postQueue s now true sys =
        .ok (.issued (stationInitialOf s ++ Nat.repr (sys.engine.queueNumbers.get k + 1)), sys2) ∧
      sys2.engine.queueNumbers.get k = sys.engine.queueNumbers.get k + 1 := by
  by_cases hlen : (sys.engine.queues.get k).length < settings.maxQueueLength
  · refine ⟨{ engine := enqueuedEngine sys.engine k (newTicket s (sys.engine.queueNumbers.get k + 1) now)
              snapshot := some (serializeState (enqueuedEngine sys.engine k (newTicket s (sys.engine.queueNumbers.get k + 1) now)))
              broadcasts := sys.broadcasts }, ?_, StMap.get_set_self _ _ _⟩
    rw [postQueue_space s k now true sys hk hlen]
    rfl
  · exact ⟨{ sys with engine := numberedEngine sys.engine k },
      postQueue_full s k now true sys hk hlen, StMap.get_set_self _ _ _⟩

theorem enqueueRun_numbers (s : String) (k : StKey) (hk : keyOf s = some k) :
    ∀ (times : List Nat) (sys : Sys),
      (enqueueRun s times sys).1 =
        (List.range times.length).map
          (fun i => stationInitialOf s ++ Nat.repr (sys.engine.queueNumbers.get k + i + 1)) := by
  intro times
  induction times with
  | nil => intro sys; rfl
  | cons now rest ih =>
    intro sys
    obtain ⟨sys2, hpq, hcnt⟩ := postQueue_counter s k now sys hk
    unfold enqueueRun
    rw [hpq]
    show (stationInitialOf s ++ Nat.repr (sys.engine.queueNumbers.get k + 1)) ::
      (enqueueRun s rest sys2).1 = _
    rw [ih sys2, hcnt]
    rw [List.length_cons, List.range_succ_eq_map, List.map_cons, List.map_map]
    congr 1
    apply List.map_congr_left
    intro i hi
    show stationInitialOf s ++ Nat.repr (sys.engine.queueNumbers.get k + 1 + i + 1) = _
    have harith : sys.engine.queueNumbers.get k + 1 + i + 1 =
        sys.engine.queueNumbers.get k + (i + 1) + 1 := by omega
    rw [harith]
    rfl

theorem enqueueRun_increasing (s : String) (k : StKey) (hk : keyOf s = some k)
    (times : List Nat) (sys : Sys) :
    ∃ ks : List Nat,
      (enqueueRun s times sys).1 = ks.map (fun n => stationInitialOf s ++ Nat.repr n) ∧
      ks.Pairwise (· < ·) := by
  refine ⟨(List.range times.length).map (fun i => sys.engine.queueNumbers.get k + i + 1), ?_, ?_⟩
  · rw [enqueueRun_numbers s k hk times sys, List.map_map]
    rfl
  · rw [List.pairwise_map]
    apply List.Pairwise.imp ?_ (List.pairwise_lt_range _)
    intro a b hab
    omega

theorem enqueueRun_distinct (s : String) (k : StKey) (hk : keyOf s = some k)
    (times : List Nat) (sys : Sys) :
    ((enqueueRun s times sys).1).Pairwise (· ≠ ·) := by
  obtain ⟨ks, hmap, hpw⟩ := enqueueRun_increasing s k hk times sys
  rw [hmap, List.pairwise_map]
  apply List.Pairwise.imp ?_ hpw
  intro a b hab hEq
  exact absurd (repr_append_inj hEq) (by omega)

theorem engineInv_init : engineInv initialEngine ghostInit := by
  intro k
  cases k <;>
    exact ⟨rfl, rfl, [], rfl, List.Pairwise.nil,
      fun n hn => absurd hn (List.not_mem_nil n), fun t ht => Option.noConfusion ht⟩

theorem engineInv_step (op : Op) (sys : Sys) (g : StMap (Option Ticket))
    (h : engineInv sys.engine g) :
    engineInv (applyOp op sys).engine (ghostStep op sys g) := by
  cases op with
  | enqueue s now w =>
    show engineInv (applyOp (.enqueue s now w) sys).engine g
    rw [applyOp_enqueue_engine]
    cases hj : jsLookup s with
    | absent => exact h
    | protoObj => exact h
    | protoFn => exact fun j => h j
    | own k =>
      have hs : stationInitialOf s = initialOf k := by
        rw [keyOf_eq_some (keyOf_of_jsLookup_own hj)]
        exact stationInitialOf_nameOf k
      show engineInv
        (if (sys.engine.queues.get k).length < settings.maxQueueLength
         then enqueuedEngine sys.engine k (newTicket s (sys.engine.queueNumbers.get k + 1) now)
         else numberedEngine sys.engine k) g
      by_cases hlen : (sys.engine.queues.get k).length < settings.maxQueueLength
      · rw [if_pos hlen]
        intro j
        by_cases hjk : j = k
        · subst hjk
          obtain ⟨hlc, hgc, ks, hmap, hpw, hbound, hcur⟩ := h j
          have e1 : (enqueuedEngine sys.engine j (newTicket s (sys.engine.queueNumbers.get j + 1) now)).queues.get j
              = sys.engine.queues.get j ++ [newTicket s (sys.engine.queueNumbers.get j + 1) now] :=
            StMap.get_set_self _ _ _
          have e2 : (enqueuedEngine sys.engine j (newTicket s (sys.engine.queueNumbers.get j + 1) now)).queueNumbers.get j
              = sys.engine.queueNumbers.get j + 1 :=
            StMap.get_set_self _ _ _
          rw [e1, e2]
          refine ⟨hlc, hgc, ks ++ [sys.engine.queueNumbers.get j + 1], ?_, ?_, ?_, ?_⟩
          · rw [List.map_append, List.map_append, hmap]
            simp [newTicket, hs]
          · rw [List.pairwise_append]
            refine ⟨hpw, List.pairwise_singleton _ _, ?_⟩
            intro a ha b hb
            simp only [List.mem_singleton] at hb
            subst hb
            have := hbound a ha
            omega
          · intro n hn
            rw [List.mem_append] at hn
            rcases hn with hn | hn
            · exact le_trans (hbound n hn) (Nat.le_succ _)
            · simp only [List.mem_singleton] at hn
              omega
          · intro t2 ht2
            obtain ⟨n0, hnum, hle, hlt⟩ := hcur t2 ht2
            refine ⟨n0, hnum, le_trans hle (Nat.le_succ _), ?_⟩
            intro n hn
            rw [List.mem_append] at hn
            rcases hn with hn | hn
            · exact hlt n hn
            · simp only [List.mem_singleton] at hn
              omega
        · have e1 : (enqueuedEngine sys.engine k (newTicket s (sys.engine.queueNumbers.get k + 1) now)).queues.get j
              = sys.engine.queues.get j :=
            StMap.get_set_ne _ _ _ _ hjk
          have e2 : (enqueuedEngine sys.engine k (newTicket s (sys.engine.queueNumbers.get k + 1) now)).queueNumbers.get j
              = sys.engine.queueNumbers.get j :=
            StMap.get_set_ne _ _ _ _ hjk
          rw [e1, e2]
          exact h j
      · rw [if_neg hlen]
        intro j
        by_cases hjk : j = k
        · subst hjk
          obtain ⟨hlc, hgc, ks, hmap, hpw, hbound, hcur⟩ := h j
          have e2 : (numberedEngine sys.engine j).queueNumbers.get j
              = sys.engine.queueNumbers.get j + 1 :=
            StMap.get_set_self _ _ _
          rw [e2]
          refine ⟨hlc, hgc, ks, hmap, hpw, ?_, ?_⟩
          · intro n hn
            exact le_trans (hbound n hn) (Nat.le_succ _)
          · intro t2 ht2
            obtain ⟨n0, hnum, hle, hlt⟩ := hcur t2 ht2
            exact ⟨n0, hnum, le_trans hle (Nat.le_succ _), hlt⟩
        · have e2 : (numberedEngine sys.engine k).queueNumbers.get j
              = sys.engine.queueNumbers.get j :=
            StMap.get_set_ne _ _ _ _ hjk
          rw [e2]
          exact h j
  | callNext s w =>
    have hg : ghostStep (.callNext s w) sys g =
        (match jsLookup s with
         | .own k =>
           match sys.engine.queues.get k with
           | t :: _ => g.set k (some t)
           | [] => g
         | _ => g) := rfl
    rw [applyOp_callNext_engine, hg]
    cases hj : jsLookup s with
    | absent => exact h
    | protoFn => exact h
    | protoObj => exact h
    | own k =>
      show engineInv
        (match sys.engine.queues.get k with
         | [] => sys.engine
         | t :: rest => calledEngine sys.engine k t rest)
        (match sys.engine.queues.get k with
         | t :: _ => g.set k (some t)
         | [] => g)
      cases hq : sys.engine.queues.get k with
      | nil => exact h
      | cons t rest =>
        intro j
        by_cases hjk : j = k
        · subst hjk
          obtain ⟨hlc, hgc, ks, hmap, hpw, hbound, hcur⟩ := h j
          rw [hq] at hmap
          cases ks with
          | nil => exact absurd hmap (by simp)
          | cons n0 ks2 =>
            rw [List.map_cons, List.map_cons] at hmap
            injection hmap with hnum hrest
            have e1 : (calledEngine sys.engine j t rest).queues.get j = rest :=
              StMap.get_set_self _ _ _
            have e2 : (calledEngine sys.engine j t rest).currentServing.get j = some t :=
              StMap.get_set_self _ _ _
            have e3 : (calledEngine sys.engine j t rest).lastServed.get j = some t :=
              StMap.get_set_self _ _ _
            have eg : (g.set j (some t)).get j = some t :=
              StMap.get_set_self _ _ _
            rw [e1, e2, e3, eg]
            refine ⟨rfl, rfl, ks2, hrest, (List.pairwise_cons.mp hpw).2, ?_, ?_⟩
            · intro n hn
              exact hbound n (List.mem_cons_of_mem _ hn)
            · intro t2 ht2
              injection ht2 with hte
              subst hte
              exact ⟨n0, hnum, hbound n0 (List.mem_cons_self _ _), (List.pairwise_cons.mp hpw).1⟩
        · have e1 : (calledEngine sys.engine k t rest).queues.get j = sys.engine.queues.get j :=
            StMap.get_set_ne _ _ _ _ hjk
          have e2 : (calledEngine sys.engine k t rest).currentServing.get j = sys.engine.currentServing.get j :=
            StMap.get_set_ne _ _ _ _ hjk
          have e3 : (calledEngine sys.engine k t rest).lastServed.get j = sys.engine.lastServed.get j :=
            StMap.get_set_ne _ _ _ _ hjk
          have eg : (g.set k (some t)).get j = g.get j :=
            StMap.get_set_ne _ _ _ _ hjk
          rw [e1, e2, e3, eg]
          exact h j
  | recallLast s w =>
    have hg : ghostStep (.recallLast s w) sys g =
        (match jsLookup s with
         | .own k =>
           match sys.engine.lastServed.get k with
           | some t => g.set k (some t)
           | none => g
         | _ => g) := rfl
    rw [applyOp_recall_engine, hg]
    cases hj : jsLookup s with
    | absent => exact h
    | protoObj => exact h
    | protoFn => exact fun j => h j
    | own k =>
      show engineInv
        (match sys.engine.lastServed.get k with
         | none => sys.engine
         | some t => recalledEngine sys.engine k t)
        (match sys.engine.lastServed.get k with
         | some t => g.set k (some t)
         | none => g)
      cases hl : sys.engine.lastServed.get k with
      | none => exact h
      | some t =>
        intro j
        by_cases hjk : j = k
        · subst hjk
          obtain ⟨hlc, hgc, ks, hmap, hpw, hbound, hcur⟩ := h j
          have hcurv : sys.engine.currentServing.get j = some t := hlc.symm.trans hl
          have e2 : (recalledEngine sys.engine j t).currentServing.get j = some t :=
            StMap.get_set_self _ _ _
          have eg : (g.set j (some t)).get j = some t :=
            StMap.get_set_self _ _ _
          rw [e2, eg]
          refine ⟨hl, rfl, ks, hmap, hpw, hbound, ?_⟩
          · intro t2 ht2
            injection ht2 with hte
            subst hte
            exact hcur _ hcurv
        · have e2 : (recalledEngine sys.engine k t).currentServing.get j = sys.engine.currentServing.get j :=
            StMap.get_set_ne _ _ _ _ hjk
          have eg : (g.set k (some t)).get j = g.get j :=
            StMap.get_set_ne _ _ _ _ hjk
          rw [e2, eg]
          exact h j
  | announce text w =>
    show engineInv (applyOp (.announce text w) sys).engine g
    rw [applyOp_announce_engine]
    exact h
  | reset => exact engineInv_init

theorem reachable_engineInv (sys : Sys) (g : StMap (Option Ticket))
    (h : ReachableG sys g) : engineInv sys.engine g := by
  induction h with
  | init => exact engineInv_init
  | step op sys2 g2 _ ih => exact engineInv_step op sys2 g2 ih

/-- C6: for a configured station, every number minted is the station's
initial letter followed by the decimal of the freshly incremented sequence
value; across any run of enqueues without a reset the sequence values
embedded in the issued numbers are strictly increasing, so no two tickets
of one station ever share a number; and the per-station counter starts at 0,
never decreases under any non-reset operation, and returns to 0 only on
full reset. -/
theorem c6_numbering (s : String) (k : StKey) (hk : keyOf s = some k) :
    stationInitialOf s = initialOf k ∧
    (∀ sys now, ∃ sys2,
      postQueue s now true sys =
        .ok (.issued (initialOf k ++ Nat.repr (sys.engine.queueNumbers.get k + 1)), sys2) ∧
      sys2.engine.queueNumbers.get k = sys.engine.queueNumbers.get k + 1) ∧
    (∀ times sys, (enqueueRun s times sys).1 =
      (List.range times.length).map
        (fun i => initialOf k ++ Nat.repr (sys.engine.queueNumbers.get k + i + 1))) ∧
    (∀ times sys, ∃ ks : List Nat,
      (enqueueRun s times sys).1 = ks.map (fun n => initialOf k ++ Nat.repr n) ∧
      ks.Pairwise (· < ·)) ∧
    (∀ times sys, ((enqueueRun s times sys).1).Pairwise (· ≠ ·)) ∧
    initialEngine.queueNumbers.get k = 0 ∧
    (∀ op sys, op ≠ Op.reset →
      sys.engine.queueNumbers.get k ≤ (applyOp op sys).engine.queueNumbers.get k) ∧
    (∀ sys, (applyOp Op.reset sys).engine.queueNumbers.get k = 0) := by
  have hs : stationInitialOf s = initialOf k := by
    rw [keyOf_eq_some hk]
    exact stationInitialOf_nameOf k
  rw [← hs]
  refine ⟨rfl, ?_, ?_, ?_, ?_, ?_, ?_, ?_⟩
  · intro sys now
    exact postQueue_counter s k now sys hk
  · intro times sys
    exact enqueueRun_numbers s k hk times sys
  · intro times sys
    exact enqueueRun_increasing s k hk times sys
  · intro times sys
    exact enqueueRun_distinct s k hk times sys
  · cases k <;> rfl
  · intro op sys hop
    exact applyOp_counter_mono op sys k hop
  · intro sys
    cases k <;> rfl

theorem c6_numbering_witness :
    (enqueueRun "Charging" [4, 5, 6] initialSys).1 = ["C1", "C2", "C3"] ∧
    ((enqueueRun "Charging" [4, 5, 6] initialSys).1).Pairwise (· ≠ ·) ∧
    initialEngine.queueNumbers.get .charging = 0 ∧
    initialSys.engine.queueNumbers.get .charging ≤
      (applyOp (.enqueue "Charging" 0 true) initialSys).engine.queueNumbers.get .charging := by
  have h := c6_numbering "Charging" .charging rfl
  refine ⟨(h.2.2.1 [4, 5, 6] initialSys).trans (by rfl),
    h.2.2.2.2.1 [4, 5, 6] initialSys, h.2.2.2.2.2.1,
    h.2.2.2.2.2.2.1 (.enqueue "Charging" 0 true) initialSys (fun hcontr => Op.noConfusion hcontr)⟩

/-- C5: in every state reachable from process start by engine operations,
no station's currently-served ticket is simultaneously in that station's
waiting list (a ticket only becomes current by being removed from waiting),
and `lastServed` always coincides with the ghost record of the most recent
ticket assigned to `currentServing` — across both call-next and recall,
with reset restarting the record. -/
theorem c5_serving_invariant (sys : Sys) (g : StMap (Option Ticket))
    (h : ReachableG sys g) :
    (∀ k t, sys.engine.currentServing.get k = some t →
      t ∉ sys.engine.queues.get k) ∧
    (∀ k, sys.engine.lastServed.get k = g.get k) := by
  have hi := reachable_engineInv sys g h
  constructor
  · intro k t hcur hmem
    obtain ⟨hlc, hgc, ks, hmap, hpw, hbound, hcurcl⟩ := hi k
    obtain ⟨n0, hnum, hle, hlt⟩ := hcurcl t hcur
    have hmm : t.number ∈ (sys.engine.queues.get k).map Ticket.number :=
      List.mem_map_of_mem _ hmem
    rw [hmap] at hmm
    obtain ⟨n, hn, hfn⟩ := List.mem_map.mp hmm
    have hne : n = n0 := repr_append_inj (hfn.trans hnum)
    have := hlt n hn
    omega
  · intro k
    obtain ⟨hlc, hgc, _⟩ := hi k
    rw [hlc, hgc]

theorem c5_serving_invariant_witness :
    (applyOp (.callNext "Charging" true)
        (applyOp (.enqueue "Charging" 5 true) initialSys)).engine.currentServing.get .charging =
      some ⟨"C1", "Charging", 5⟩ ∧
    (⟨"C1", "Charging", 5⟩ : Ticket) ∉
      (applyOp (.callNext "Charging" true)
        (applyOp (.enqueue "Charging" 5 true) initialSys)).engine.queues.get .charging ∧
    (applyOp (.callNext "Charging" true)
        (applyOp (.enqueue "Charging" 5 true) initialSys)).engine.lastServed.get .charging =
      (ghostStep (.callNext "Charging" true) (applyOp (.enqueue "Charging" 5 true) initialSys)
        (ghostStep (.enqueue "Charging" 5 true) initialSys ghostInit)).get .charging := by
  have hr : ReachableG
      (applyOp (.callNext "Charging" true) (applyOp (.enqueue "Charging" 5 true) initialSys))
      (ghostStep (.callNext "Charging" true) (applyOp (.enqueue "Charging" 5 true) initialSys)
        (ghostStep (.enqueue "Charging" 5 true) initialSys ghostInit)) :=
    ReachableG.step _ _ _ (ReachableG.step _ _ _ ReachableG.init)
  have h := c5_serving_invariant _ _ hr
  exact ⟨rfl, h.1 .charging ⟨"C1", "Charging", 5⟩ rfl, h.2 .charging⟩
